import Mathlib

/-!
Shallow embedding of `src/src/lib/mtproto/superMessagePort.ts`
(class `SuperMessagePort` of the tweb message-port layer).

JavaScript values that flow through task payloads (handler results and
errors) are modelled by the inductive `Val`, which keeps enough structure
to decide JS truthiness (`Val.truthy`), since the source tests
`error ? deferred.reject(error) : deferred.resolve(result)` by truthiness.
Optional payload fields (`result?`, `error?` and the `transfer?` list)
are modelled by `Option` / `Bool` presence flags: in the source,
`'result' in payload` tests presence of the property, and
`if(task.transfer)` tests truthiness of the (always truthy when present)
transfer array.

Promises are modelled as numbered cells in a `futures` table
(`FutureState`: pending / resolved / rejected, first settlement wins,
matching JS promise semantics).  The `awaiting` table maps a call id to
the future its `resolve`/`reject` currently point at (`AwaitingEntry`),
which lets the rebinding performed by `processAckTask` be expressed as an
update of the `target` field.  Ports are identified by numbers; the
`pending` map of `releasePending`/`pushTask` is an insertion-ordered
association list whose key is `Option Nat` because the source uses the
JS value `undefined` as the map key for "no destination / broadcast".
The non-service-worker transport path is modelled (`IS_SERVICE_WORKER`
false); timers and the message loop are external to the embedding, so
the timeout branch of `sendPing` is the state transformer `pingTimeout`.
-/

namespace SuperMessagePort

/-- A JavaScript value as it appears in task payloads: enough structure to
decide truthiness.  `verr` stands for an `Error` object (always truthy),
used for the synthesized `new Error('no listener')`. -/
inductive Val where
  | undef
  | vnull
  | vbool (b : Bool)
  | vnum (n : Int)
  | vstr (s : String)
  | vobj (k : Nat)
  | verr (msg : String)
deriving DecidableEq

/-- JS truthiness of a `Val` (`undefined`, `null`, `false`, `0`, `''` are
falsy; objects, in particular `Error`s, are truthy). -/
def Val.truthy : Val → Bool
  | .undef => false
  | .vnull => false
  | .vbool b => b
  | .vnum n => n != 0
  | .vstr s => s != ""
  | .vobj _ => true
  | .verr _ => true

/-- Payload of a `ResultTask`: `{taskId, result?, error?}`. -/
structure ResultPayload where
  taskId : Nat
  result : Option Val
  error : Option Val
deriving DecidableEq

/-- Payload of an `AckTask`: `{taskId, cached, result?, error?}`. -/
structure AckPayload where
  taskId : Nat
  cached : Bool
  result : Option Val
  error : Option Val
deriving DecidableEq

/-- The closed task variant exchanged over the wire.  Every task carries
its `id` and a flag recording whether a `transfer` list is attached
(`createTask` stores the list itself; the only observable use in the
embedded code is the truthiness test `if(task.transfer)`). -/
inductive Task where
  | invoke (id : Nat) (transfer : Bool) (op : String) (payload : Val)
      (withAck : Bool) (isVoid : Bool)
  | result (id : Nat) (transfer : Bool) (p : ResultPayload)
  | ack (id : Nat) (transfer : Bool) (p : AckPayload)
  | ping (id : Nat) (transfer : Bool)
  | pong (id : Nat) (transfer : Bool)
  | batch (id : Nat) (transfer : Bool) (items : List Task)

/-- Truthiness of the `transfer` field of a task. -/
def Task.hasTransfer : Task → Bool
  | .invoke _ tr _ _ _ _ => tr
  | .result _ tr _ => tr
  | .ack _ tr _ => tr
  | .ping _ tr => tr
  | .pong _ tr => tr
  | .batch _ tr _ => tr

/-- Is the task a `result` task? -/
def Task.isResult : Task → Bool
  | .result _ _ _ => true
  | _ => false

/-- Is the task an `ack` task? -/
def Task.isAck : Task → Bool
  | .ack _ _ _ => true
  | _ => false

/-- A value with which a promise can be fulfilled: either a plain payload
value, or an `AckedResult` object `{cached, result}` whose `result` field
is (a reference to) another promise. -/
inductive FutureVal where
  | plain (v : Val)
  | acked (cached : Bool) (result : Nat)
deriving DecidableEq

/-- The state of one promise cell. -/
inductive FutureState where
  | pending
  | resolved (v : FutureVal)
  | rejected (e : Val)
deriving DecidableEq

/-- One entry of the `awaiting` table: the future its `resolve`/`reject`
currently settle, and the `taskType` kept for logging. -/
structure AwaitingEntry where
  target : Nat
  taskType : String
deriving DecidableEq

/-- Caller-side state of a `SuperMessagePort` instance: the `taskId`
counter, the `awaiting` table, and the promise cells it owns (`futures`,
with `nextFuture` the next fresh cell). -/
structure CallerState where
  taskId : Nat
  awaiting : List (Nat × AwaitingEntry)
  futures : List (Nat × FutureState)
  nextFuture : Nat
deriving DecidableEq

/-- Settle the future `fid`: first settlement wins, a later settlement of
the same cell is a no-op (JS promise semantics). -/
def settle (fs : List (Nat × FutureState)) (fid : Nat) (v : FutureState) :
    List (Nat × FutureState) :=
  fs.map fun p =>
    if p.1 = fid then
      (p.1, match p.2 with
            | .pending => v
            | st => st)
    else p

/-- Truthiness of an optional `error` payload field (an absent property
reads as `undefined`, which is falsy). -/
def errTruthy : Option Val → Bool
  | some v => v.truthy
  | none => false

/-- `processResultTask` (lines 266-276): look up the awaiting entry for
`payload.taskId`; if absent, return.  Otherwise
`error ? deferred.reject(error) : deferred.resolve(result)` —
a truthiness test on `error` — and then `delete this.awaiting[taskId]`. -/
def processResultTask (p : ResultPayload) (s : CallerState) : CallerState :=
  match s.awaiting.lookup p.taskId with
  | none => s
  | some d =>
    let fs :=
      if errTruthy p.error then
        settle s.futures d.target (.rejected (p.error.getD .undef))
      else
        settle s.futures d.target (.resolved (.plain (p.result.getD .undef)))
    { s with
      futures := fs,
      awaiting := s.awaiting.filter fun q => q.1 != p.taskId }

/-- `processAckTask` (lines 278-319): look up the awaiting entry; if
absent, return.  Otherwise capture `previousResolve`, build the
`AckedResult`: when `cached`, its `result` is `Promise.resolve(payload.result)`
if `'result' in payload` else `Promise.reject(payload.error)` (a fresh,
already-settled promise); when not `cached`, its `result` is a fresh
pending promise whose `resolve`/`reject` are written back into the entry
(the rebinding).  Finally `previousResolve(ret)`.  The entry is never
deleted here. -/
def processAckTask (p : AckPayload) (s : CallerState) : CallerState :=
  match s.awaiting.lookup p.taskId with
  | none => s
  | some d =>
    let f := s.nextFuture
    let inner : FutureState :=
      if p.cached then
        match p.result with
        | some v => .resolved (.plain v)
        | none => .rejected (p.error.getD .undef)
      else .pending
    let fs := (f, inner) :: s.futures
    let aw :=
      if p.cached then s.awaiting
      else s.awaiting.map fun q =>
        if q.1 = p.taskId then (q.1, { d with target := f }) else q
    { s with
      nextFuture := f + 1,
      futures := settle fs d.target (.resolved (.acked p.cached f)),
      awaiting := aw }

/-- `invoke` (lines 437-445), caller side: allocate the task id, create
the returned promise, register the `AwaitingEntry` for it, and build the
`Invoke` task that `pushTask` will enqueue.  Returns the new state, the
call id, the id of the returned future, and the task. -/
def invoke (op : String) (arg : Val) (withAck : Bool) (transfer : Bool)
    (s : CallerState) : CallerState × Nat × Nat × Task :=
  let callId := s.taskId
  let fid := s.nextFuture
  ({ taskId := callId + 1,
     awaiting := (callId, ⟨fid, op⟩) :: s.awaiting,
     futures := (fid, .pending) :: s.futures,
     nextFuture := fid + 1 },
   callId, fid, .invoke callId transfer op arg withAck false)

/-- `invokeVoid` (lines 430-433): build an `Invoke` task with
`withAck = undefined` and `void = true`; no awaiting entry is created. -/
def invokeVoid (op : String) (arg : Val) (transfer : Bool) (tid : Nat) :
    Task × Nat :=
  (.invoke tid transfer op arg false true, tid + 1)

/-- What the registered handler for the invoked operation does, as
observed by `processInvokeTask`: absent, synchronous value, synchronous
throw, promise later fulfilled, or promise later rejected. -/
inductive HandlerOutcome where
  | noListener
  | syncVal (v : Val)
  | syncThrow (e : Val)
  | asyncVal (v : Val)
  | asyncThrow (e : Val)
deriving DecidableEq

/-- `processInvokeTask` (lines 333-400), receiver side: `callId` is the
incoming task's id, `tid0` the receiver's `taskId` counter.  A result
task shell is created first when the call is not void, then an ack task
shell when `withAck`; the handler (or the synthesized
`new Error('no listener')` throw) then decides which of them are filled
in and pushed to the source.  Returns the pushed tasks, in push order,
and the new `taskId` counter. -/
def processInvokeTask (withAck isVoid : Bool) (callId : Nat)
    (h : HandlerOutcome) (tid0 : Nat) : List Task × Nat :=
  let resultId := tid0
  let tid1 := if isVoid then tid0 else tid0 + 1
  let ackId := tid1
  let tid2 := if withAck then tid1 + 1 else tid1
  let mkResult : Option Val → Option Val → Task := fun r e =>
    .result resultId false ⟨callId, r, e⟩
  let mkAck : Bool → Option Val → Option Val → Task := fun c r e =>
    .ack ackId false ⟨callId, c, r, e⟩
  let out : List Task :=
    if isVoid then []
    else
      match h with
      | .noListener =>
        if withAck then [mkAck true none (some (.verr "no listener"))]
        else [mkResult none (some (.verr "no listener"))]
      | .syncThrow e =>
        if withAck then [mkAck true none (some e)]
        else [mkResult none (some e)]
      | .syncVal v =>
        if withAck then [mkAck true (some v) none]
        else [mkResult (some v) none]
      | .asyncVal v =>
        if withAck then [mkAck false none none, mkResult (some v) none]
        else [mkResult (some v) none]
      | .asyncThrow e =>
        if withAck then [mkAck false none none, mkResult none (some e)]
        else [mkResult none (some e)]
  (out, tid2)

/-- Caller-side handling of one task coming back from the receiver
(`onMessage` routing restricted to the reply kinds). -/
def applyReply (s : CallerState) (t : Task) : CallerState :=
  match t with
  | .result _ _ p => processResultTask p s
  | .ack _ _ p => processAckTask p s
  | _ => s

/-- Caller-side handling of a list of reply tasks, in order. -/
def applyReplies (s : CallerState) (ts : List Task) : CallerState :=
  ts.foldl applyReply s

/-- One full round trip of a (non-void) `invoke` against a handler with
outcome `h`: the caller registers the call, the receiver processes the
`Invoke` task, and the caller processes the pushed replies in order.
Returns the final caller state, the call id and the id of the future
returned by `invoke`. -/
def roundTrip (op : String) (arg : Val) (withAck : Bool)
    (h : HandlerOutcome) (rTid : Nat) (s : CallerState) :
    CallerState × Nat × Nat :=
  let r := invoke op arg withAck false s
  let pushed := (processInvokeTask withAck false r.2.1 h rTid).1
  (applyReplies r.1 pushed, r.2.1, r.2.2.1)

/-- `pushTask` (lines 420-428), queue part: append the task to the
pending list of the destination key (the JS `Map` keeps insertion order;
the key is `undefined` when no port is given). -/
def pushTask (t : Task) (k : Option Nat)
    (pend : List (Option Nat × List Task)) : List (Option Nat × List Task) :=
  match pend.any fun e => e.1 == k with
  | true => pend.map fun e => if e.1 = k then (e.1, e.2 ++ [t]) else e
  | false => pend ++ [(k, [t])]

/-- Close the open batch of the `releasePending` fold, if any: the batch
object was pushed into the output when opened, holding its id and (in
reverse) the tasks merged so far. -/
def closeCur : Option (Nat × List Task) → List Task
  | none => []
  | some (i, acc) => [.batch i false acc.reverse]

/-- The per-port fold of `releasePending` (lines 224-239): a task with a
transfer list closes the open batch (`batchTask = undefined`) and is
output on its own; otherwise a batch is opened if none is
(`createTask('batch', [])`, consuming a task id) and the task is merged
into it.  Returns the transport-level task sequence and the new
`taskId`. -/
def flushPort : Nat → Option (Nat × List Task) → List Task →
    List Task × Nat
  | tid, cur, [] => (closeCur cur, tid)
  | tid, cur, t :: rest =>
    if t.hasTransfer then
      let r := flushPort tid none rest
      (closeCur cur ++ t :: r.1, r.2)
    else
      match cur with
      | none => flushPort (tid + 1) (some (tid, [t])) rest
      | some (i, acc) => flushPort tid (some (i, t :: acc)) rest

/-- The whole-map iteration of `releasePending`: fold every pending entry
through `flushPort`, threading the `taskId` counter, and tag each
transport task with its destination key. -/
def flushAll (tid : Nat) : List (Option Nat × List Task) →
    List (Option Nat × Task) × Nat
  | [] => ([], tid)
  | (k, ts) :: rest =>
    let r := flushPort tid none ts
    let r2 := flushAll r.2 rest
    (r.1.map (fun t => (k, t)) ++ r2.1, r2.2)

/-- Queue-and-flush state of a `SuperMessagePort` instance. -/
structure FlushState where
  listenPorts : List Nat
  releasing : Bool
  taskId : Nat
  pending : List (Option Nat × List Task)

/-- `releasePending` (lines 211-264) as observed over one scheduling
tick: if there is no listen port or a release is already in flight,
nothing happens; otherwise the pending map is drained through the
batching fold, every produced task is handed to the transport
(`postMessage`, non-service-worker path) tagged with its destination
key, and the map is cleared.  Returns the new state and the emitted
transport sends in order. -/
def releasePending (s : FlushState) : FlushState × List (Option Nat × Task) :=
  if s.listenPorts.isEmpty || s.releasing then (s, [])
  else
    let r := flushAll s.taskId s.pending
    ({ s with pending := [], taskId := r.2 }, r.1)

/-- `pushTask` followed by the flush it triggers (`releasePending` is
called from `pushTask` and nowhere else). -/
def pushTaskAndFlush (t : Task) (k : Option Nat) (s : FlushState) :
    FlushState × List (Option Nat × Task) :=
  releasePending { s with pending := pushTask t k s.pending }

/-- `attachListenPort` (lines 126-129): register the port for inbound
messages; no flush is triggered. -/
def attachListenPort (p : Nat) (s : FlushState) : FlushState :=
  { s with listenPorts := s.listenPorts ++ [p] }

/-- `postMessage` (lines 179-184), destination resolution:
`port ? [port] : this.sendPorts` — a concrete port is the sole target, a
missing (`undefined`, falsy) port broadcasts to every send port. -/
def postMessage (port : Option Nat) (sendPorts : List Nat) : List Nat :=
  match port with
  | some p => [p]
  | none => sendPorts

/-- `processPingTask` (lines 321-323): push a fresh `Pong` task keyed by
the event's source.  Returns the new pending map and `taskId`. -/
def processPingTask (eventSource : Option Nat) (tid : Nat)
    (pend : List (Option Nat × List Task)) :
    List (Option Nat × List Task) × Nat :=
  (pushTask (.pong tid false) eventSource pend, tid + 1)

/-- Endpoint-membership state of an instance: listen ports, send ports,
and the ports with an outstanding ping resolver registered. -/
structure PortsState where
  listenPorts : List Nat
  sendPorts : List Nat
  pingResolves : List Nat
deriving DecidableEq

/-- Modelled from the spec: the helper `indexOfAndSplice` from
`src/helpers/array/indexOfAndSplice` is imported by the source but its
file is not under `src/`; per the spec the liveness-timeout path
"removes the destination from both the listen and send endpoint sets",
i.e. splices the element out of the array at its index when present. -/
def indexOfAndSplice (xs : List Nat) (x : Nat) : List Nat :=
  xs.erase x

/-- The rejection (timeout) branch of `sendPing` (lines 158-166): the
ping resolver is dropped, the port is spliced out of both `listenPorts`
and `sendPorts`, and `port.close()` is called when the port has a close
hook.  `hasClose` says which ports have one; the returned flag records
whether the close hook was invoked. -/
def pingTimeout (hasClose : Nat → Bool) (port : Nat) (s : PortsState) :
    PortsState × Bool :=
  ({ listenPorts := indexOfAndSplice s.listenPorts port,
     sendPorts := indexOfAndSplice s.sendPorts port,
     pingResolves := s.pingResolves.erase port },
   hasClose port)

/-- `invokeExceptSource` (lines 477-484), target computation: a copy of
`sendPorts` with the excluded source spliced out. -/
def invokeExceptSourceTargets (s : PortsState) (src : Nat) : List Nat :=
  indexOfAndSplice s.sendPorts src

/-- Destination-omitted (broadcast) `invoke`/`invokeVoid`: `pushTask`
keys the task by `undefined`, and `postMessage` then targets every send
port. -/
def broadcastTargets (s : PortsState) : List Nat :=
  s.sendPorts

/-! ## Helper lemmas -/

theorem lookup_cons_self {α β : Type} [BEq α] [LawfulBEq α] (k : α) (v : β)
    (l : List (α × β)) : List.lookup k ((k, v) :: l) = some v := by
  simp [List.lookup]

theorem lookup_cons_ne {α β : Type} [BEq α] [LawfulBEq α] {k a : α}
    (hne : k ≠ a) (v : β) (l : List (α × β)) :
    List.lookup k ((a, v) :: l) = List.lookup k l := by
  have hb : (k == a) = false := by simpa using hne
  simp [List.lookup, hb]

theorem lookup_filter_ne (l : List (Nat × AwaitingEntry)) (k : Nat) :
    (l.filter fun q => q.1 != k).lookup k = none := by
  induction l with
  | nil => rfl
  | cons hd tl ih =>
    obtain ⟨a, v⟩ := hd
    by_cases h : a = k
    · have hp : ((a, v).1 != k) = false := by simp [h]
      rw [List.filter_cons, hp]
      simpa using ih
    · have hp : ((a, v).1 != k) = true := by simp [h]
      rw [List.filter_cons, hp]
      simp only [if_true]
      rw [lookup_cons_ne (Ne.symm h)]
      exact ih

theorem lookup_eq_none_of_keys_lt (l : List (Nat × AwaitingEntry)) (k : Nat)
    (h : ∀ q ∈ l, q.1 < k) : l.lookup k = none := by
  induction l with
  | nil => rfl
  | cons hd tl ih =>
    obtain ⟨a, v⟩ := hd
    have h1 : a < k := h (a, v) (List.mem_cons_self _ _)
    have hne : k ≠ a := by omega
    rw [lookup_cons_ne hne]
    exact ih fun q hq => h q (List.mem_cons_of_mem _ hq)

theorem lookup_map_modify_self {α β : Type} [BEq α] [LawfulBEq α]
    [DecidableEq α] (k : α) (f : α × β → β) (l : List (α × β)) :
    List.lookup k (l.map fun e => if e.1 = k then (e.1, f e) else e) =
      (List.lookup k l).map fun v => f (k, v) := by
  induction l with
  | nil => rfl
  | cons hd tl ih =>
    obtain ⟨a, v⟩ := hd
    by_cases h : a = k
    · subst h
      simp only [List.map_cons, if_true]
      rw [lookup_cons_self, lookup_cons_self]
      rfl
    · have hka : k ≠ a := Ne.symm h
      simp only [List.map_cons, if_neg h]
      rw [lookup_cons_ne hka, lookup_cons_ne hka]
      exact ih

theorem lookup_map_modify_other {α β : Type} [BEq α] [LawfulBEq α]
    [DecidableEq α] {k k' : α} (hne : k' ≠ k) (f : α × β → β)
    (l : List (α × β)) :
    List.lookup k' (l.map fun e => if e.1 = k then (e.1, f e) else e) =
      List.lookup k' l := by
  induction l with
  | nil => rfl
  | cons hd tl ih =>
    obtain ⟨a, v⟩ := hd
    by_cases h : a = k
    · subst h
      simp only [List.map_cons, if_true]
      rw [lookup_cons_ne hne, lookup_cons_ne hne]
      exact ih
    · simp only [List.map_cons, if_neg h]
      by_cases hk' : k' = a
      · subst hk'
        rw [lookup_cons_self, lookup_cons_self]
      · rw [lookup_cons_ne hk', lookup_cons_ne hk']
        exact ih

theorem lookup_none_of_any_eq_false {α β : Type} [BEq α] [LawfulBEq α]
    (k : α) (l : List (α × β)) (h : (l.any fun e => e.1 == k) = false) :
    List.lookup k l = none := by
  induction l with
  | nil => rfl
  | cons hd tl ih =>
    obtain ⟨a, v⟩ := hd
    simp only [List.any_cons, Bool.or_eq_false_iff] at h
    have hka : k ≠ a := by
      intro hh
      subst hh
      simp at h
    rw [lookup_cons_ne hka]
    exact ih h.2

theorem lookup_append_of_none {α β : Type} [BEq α] (k : α)
    (l₁ l₂ : List (α × β)) (h : List.lookup k l₁ = none) :
    List.lookup k (l₁ ++ l₂) = List.lookup k l₂ := by
  induction l₁ with
  | nil => rfl
  | cons hd tl ih =>
    obtain ⟨a, v⟩ := hd
    cases hb : k == a with
    | true => simp [List.lookup, hb] at h
    | false =>
      simp only [List.lookup, hb] at h
      simp only [List.cons_append, List.lookup, hb]
      exact ih h

theorem lookup_append_of_some {α β : Type} [BEq α] {k : α}
    {l₁ : List (α × β)} {v : β} (h : List.lookup k l₁ = some v)
    (l₂ : List (α × β)) : List.lookup k (l₁ ++ l₂) = some v := by
  induction l₁ with
  | nil => simp [List.lookup] at h
  | cons hd tl ih =>
    obtain ⟨a, w⟩ := hd
    cases hb : k == a with
    | true =>
      simp only [List.lookup, hb] at h
      simp only [List.cons_append, List.lookup, hb]
      exact h
    | false =>
      simp only [List.lookup, hb] at h
      simp only [List.cons_append, List.lookup, hb]
      exact ih h

theorem lookup_ne_none_of_mem {α β : Type} [BEq α] [LawfulBEq α] {k : α}
    {l : List (α × β)} {e : α × β} (he : e ∈ l) (hk : e.1 = k) :
    List.lookup k l ≠ none := by
  induction l with
  | nil => simp at he
  | cons hd tl ih =>
    obtain ⟨a, w⟩ := hd
    by_cases hka : k = a
    · subst hka
      rw [lookup_cons_self]
      simp
    · rw [lookup_cons_ne hka]
      rcases List.mem_cons.mp he with he | he
      · exfalso
        apply hka
        rw [← hk, he]
      · exact ih he

theorem pushTask_lookup_self (t : Task) (k : Option Nat)
    (pend : List (Option Nat × List Task)) :
    (pushTask t k pend).lookup k =
      some (((pend.lookup k).getD []) ++ [t]) := by
  rw [pushTask]
  cases ha : pend.any fun e => e.1 == k with
  | true =>
    rw [lookup_map_modify_self]
    cases hl : List.lookup k pend with
    | none =>
      exfalso
      rw [List.any_eq_true] at ha
      obtain ⟨e, he, hek⟩ := ha
      rw [beq_iff_eq] at hek
      exact lookup_ne_none_of_mem he hek hl
    | some v => simp
  | false =>
    rw [lookup_append_of_none _ _ _ (lookup_none_of_any_eq_false _ _ ha),
      lookup_none_of_any_eq_false _ _ ha]
    simp [List.lookup]

theorem pushTask_lookup_other (t : Task) (k k' : Option Nat)
    (hne : k' ≠ k) (pend : List (Option Nat × List Task)) :
    (pushTask t k pend).lookup k' = pend.lookup k' := by
  rw [pushTask]
  cases ha : pend.any fun e => e.1 == k with
  | true => exact lookup_map_modify_other hne _ pend
  | false =>
    cases hl : List.lookup k' pend with
    | none =>
      rw [lookup_append_of_none _ _ _ hl, lookup_cons_ne hne]
      rfl
    | some v => exact lookup_append_of_some hl _

theorem flushPort_some_ne_nil (ts : List Task) :
    ∀ (tid i : Nat) (acc : List Task),
      (flushPort tid (some (i, acc)) ts).1 ≠ [] := by
  induction ts with
  | nil =>
    intro tid i acc
    simp [flushPort, closeCur]
  | cons t rest ih =>
    intro tid i acc
    rw [flushPort]
    cases ht : t.hasTransfer with
    | true => simp [closeCur]
    | false => simpa using ih tid i (t :: acc)

theorem flushPort_none_ne_nil (ts : List Task) (tid : Nat) (hne : ts ≠ []) :
    (flushPort tid none ts).1 ≠ [] := by
  match ts with
  | [] => exact absurd rfl hne
  | t :: rest =>
    rw [flushPort]
    cases ht : t.hasTransfer with
    | true => simp [closeCur]
    | false => simpa using flushPort_some_ne_nil rest (tid + 1) tid [t]

theorem flushAll_ne_nil (pend : List (Option Nat × List Task)) :
    ∀ tid : Nat, (∃ e ∈ pend, e.2 ≠ []) → (flushAll tid pend).1 ≠ [] := by
  induction pend with
  | nil =>
    intro tid h
    obtain ⟨e, he, _⟩ := h
    simp at he
  | cons hd rest ih =>
    intro tid h
    obtain ⟨a, ts⟩ := hd
    rw [flushAll]
    intro hnil
    rw [List.append_eq_nil] at hnil
    obtain ⟨e, he, hne⟩ := h
    rcases List.mem_cons.mp he with he | he
    · subst he
      exact flushPort_none_ne_nil _ _ hne
        (by simpa using hnil.1)
    · exact ih _ ⟨e, he, hne⟩ hnil.2

theorem pushTask_has_nonempty (t : Task) (k : Option Nat)
    (pend : List (Option Nat × List Task)) :
    ∃ e ∈ pushTask t k pend, e.2 ≠ [] := by
  rw [pushTask]
  cases ha : pend.any fun e => e.1 == k with
  | true =>
    rw [List.any_eq_true] at ha
    obtain ⟨e, he, hek⟩ := ha
    rw [beq_iff_eq] at hek
    refine ⟨(e.1, e.2 ++ [t]), ?_, by simp⟩
    have : (fun e => if e.1 = k then (e.1, e.2 ++ [t]) else e) e =
        (e.1, e.2 ++ [t]) := by
      simp [hek]
    exact this ▸ List.mem_map_of_mem _ he
  | false =>
    exact ⟨(k, [t]), List.mem_append_right _ (List.mem_singleton.mpr rfl),
      by simp⟩

theorem flushPort_some_all_plain (ts : List Task) :
    ∀ (tid i : Nat) (acc : List Task),
      (∀ t ∈ ts, t.hasTransfer = false) →
      flushPort tid (some (i, acc)) ts =
        ([.batch i false (acc.reverse ++ ts)], tid) := by
  induction ts with
  | nil =>
    intro tid i acc _
    simp [flushPort, closeCur]
  | cons t rest ih =>
    intro tid i acc hall
    rw [flushPort]
    cases ht : t.hasTransfer with
    | true => simp [hall t (List.mem_cons_self _ _)] at ht
    | false =>
      have h' := ih tid i (t :: acc)
        (fun x hx => hall x (List.mem_cons_of_mem _ hx))
      simpa [List.reverse_cons, List.append_assoc] using h'

theorem flushPort_none_all_plain (ts : List Task) (tid : Nat) (hne : ts ≠ [])
    (hall : ∀ t ∈ ts, t.hasTransfer = false) :
    flushPort tid none ts = ([.batch tid false ts], tid + 1) := by
  match ts with
  | [] => exact absurd rfl hne
  | t :: rest =>
    rw [flushPort]
    cases ht : t.hasTransfer with
    | true => simp [hall t (List.mem_cons_self _ _)] at ht
    | false =>
      simpa using flushPort_some_all_plain rest (tid + 1) tid [t]
        (fun x hx => hall x (List.mem_cons_of_mem _ hx))

theorem flushPort_split_some (l₁ : List Task) :
    ∀ (tid i : Nat) (acc : List Task) (tr : Task) (l₂ : List Task),
      (∀ t ∈ l₁, t.hasTransfer = false) → tr.hasTransfer = true →
      flushPort tid (some (i, acc)) (l₁ ++ tr :: l₂) =
        (Task.batch i false (acc.reverse ++ l₁) :: tr ::
          (flushPort tid none l₂).1,
         (flushPort tid none l₂).2) := by
  induction l₁ with
  | nil =>
    intro tid i acc tr l₂ _ htr
    rw [List.nil_append, flushPort]
    cases htb : tr.hasTransfer with
    | false => simp [htr] at htb
    | true => simp [closeCur]
  | cons t rest ih =>
    intro tid i acc tr l₂ h1 htr
    rw [List.cons_append, flushPort]
    cases ht : t.hasTransfer with
    | true => simp [h1 t (List.mem_cons_self _ _)] at ht
    | false =>
      have h' := ih tid i (t :: acc) tr l₂
        (fun x hx => h1 x (List.mem_cons_of_mem _ hx)) htr
      simpa [List.reverse_cons, List.append_assoc] using h'

theorem flushPort_split_none_cons (t : Task) (rest : List Task) (tr : Task)
    (l₂ : List Task) (tid : Nat) (ht : t.hasTransfer = false)
    (h1 : ∀ x ∈ rest, x.hasTransfer = false) (htr : tr.hasTransfer = true) :
    flushPort tid none ((t :: rest) ++ tr :: l₂) =
      (Task.batch tid false (t :: rest) :: tr ::
        (flushPort (tid + 1) none l₂).1,
       (flushPort (tid + 1) none l₂).2) := by
  rw [List.cons_append, flushPort]
  cases htb : t.hasTransfer with
  | true => simp [ht] at htb
  | false =>
    simpa using flushPort_split_some rest (tid + 1) tid [t] tr l₂ h1 htr

theorem settle_cons_pending (F : List (Nat × FutureState)) (fid : Nat)
    (v : FutureState) :
    settle ((fid, .pending) :: F) fid v = (fid, v) :: settle F fid v := by
  simp [settle]

theorem settle_cons_ne (F : List (Nat × FutureState)) (a fid : Nat)
    (st v : FutureState) (h : a ≠ fid) :
    settle ((a, st) :: F) fid v = (a, st) :: settle F fid v := by
  simp [settle, h]

theorem processResultTask_noop {s : CallerState} {p : ResultPayload}
    (h : s.awaiting.lookup p.taskId = none) : processResultTask p s = s := by
  simp [processResultTask, h]

theorem processAckTask_noop {s : CallerState} {p : AckPayload}
    (h : s.awaiting.lookup p.taskId = none) : processAckTask p s = s := by
  simp [processAckTask, h]

theorem processResultTask_fresh (op : String) (cid fid : Nat)
    (A : List (Nat × AwaitingEntry)) (F : List (Nat × FutureState))
    (tid nf : Nat) (r er : Option Val) :
    processResultTask ⟨cid, r, er⟩ ⟨tid, (cid, ⟨fid, op⟩) :: A, F, nf⟩ =
      ⟨tid,
       ((cid, (⟨fid, op⟩ : AwaitingEntry)) :: A).filter fun q => q.1 != cid,
       if errTruthy er then settle F fid (.rejected (er.getD .undef))
       else settle F fid (.resolved (.plain (r.getD .undef))),
       nf⟩ := by
  simp only [processResultTask, lookup_cons_self]

theorem processResultTask_fresh_err (op : String) (cid fid : Nat)
    (A : List (Nat × AwaitingEntry)) (F : List (Nat × FutureState))
    (tid nf : Nat) (r : Option Val) (e : Val) (he : e.truthy = true) :
    processResultTask ⟨cid, r, some e⟩ ⟨tid, (cid, ⟨fid, op⟩) :: A, F, nf⟩ =
      ⟨tid,
       ((cid, (⟨fid, op⟩ : AwaitingEntry)) :: A).filter fun q => q.1 != cid,
       settle F fid (.rejected e),
       nf⟩ := by
  rw [processResultTask_fresh]
  have het : errTruthy (some e) = true := by simp [errTruthy, he]
  rw [het]
  simp

theorem processResultTask_fresh_ok (op : String) (cid fid : Nat)
    (A : List (Nat × AwaitingEntry)) (F : List (Nat × FutureState))
    (tid nf : Nat) (r er : Option Val) (he : errTruthy er = false) :
    processResultTask ⟨cid, r, er⟩ ⟨tid, (cid, ⟨fid, op⟩) :: A, F, nf⟩ =
      ⟨tid,
       ((cid, (⟨fid, op⟩ : AwaitingEntry)) :: A).filter fun q => q.1 != cid,
       settle F fid (.resolved (.plain (r.getD .undef))),
       nf⟩ := by
  rw [processResultTask_fresh, he]
  simp

theorem processAckTask_fresh_cached (op : String) (cid fid : Nat)
    (A : List (Nat × AwaitingEntry)) (F : List (Nat × FutureState))
    (tid nf : Nat) (r er : Option Val) :
    processAckTask ⟨cid, true, r, er⟩ ⟨tid, (cid, ⟨fid, op⟩) :: A, F, nf⟩ =
      ⟨tid, (cid, ⟨fid, op⟩) :: A,
       settle ((nf, match r with
                    | some v => FutureState.resolved (.plain v)
                    | none => FutureState.rejected (er.getD .undef)) :: F)
         fid (.resolved (.acked true nf)),
       nf + 1⟩ := by
  simp only [processAckTask, lookup_cons_self]
  cases r <;> simp

theorem processAckTask_fresh_uncached (op : String) (cid fid : Nat)
    (A : List (Nat × AwaitingEntry)) (F : List (Nat × FutureState))
    (tid nf : Nat) (r er : Option Val) :
    processAckTask ⟨cid, false, r, er⟩ ⟨tid, (cid, ⟨fid, op⟩) :: A, F, nf⟩ =
      ⟨tid,
       ((cid, (⟨fid, op⟩ : AwaitingEntry)) :: A).map fun q =>
         if q.1 = cid then (q.1, ⟨nf, op⟩) else q,
       settle ((nf, .pending) :: F) fid (.resolved (.acked false nf)),
       nf + 1⟩ := by
  simp only [processAckTask, lookup_cons_self]
  simp

/-! ## Claims -/

/-- C1 (amended): an `AwaitingEntry` is created exactly once, by `invoke`
at the freshly allocated call id (no entry with that id can pre-exist,
since every registered id is below the `taskId` counter); receipt of the
matching `Result` removes it, after which no entry for that id remains
(the removal deletes every binding of the id); but a final (cached) `Ack`
settles the caller's future WITHOUT removing the entry, and no `Ack`
ever changes the number of entries — only a `Result` removes. -/
theorem c1_awaiting_entry_lifecycle (s : CallerState) (op : String)
    (arg : Val) (wa tr : Bool)
    (hwf : ∀ q ∈ s.awaiting, q.1 < s.taskId) :
    s.awaiting.lookup s.taskId = none ∧
    (invoke op arg wa tr s).1.awaiting.lookup s.taskId =
      some ⟨s.nextFuture, op⟩ ∧
    (∀ p : ResultPayload,
      (processResultTask p s).awaiting.lookup p.taskId = none) ∧
    (∀ p : AckPayload, p.cached = true →
      (processAckTask p s).awaiting = s.awaiting) ∧
    (∀ p : AckPayload,
      (processAckTask p s).awaiting.length = s.awaiting.length) := by
  refine ⟨lookup_eq_none_of_keys_lt _ _ hwf, ?_, ?_, ?_, ?_⟩
  · simp only [invoke]
    exact lookup_cons_self _ _ _
  · intro p
    cases hl : s.awaiting.lookup p.taskId with
    | none => simp [processResultTask, hl]
    | some d => simp [processResultTask, hl, lookup_filter_ne]
  · intro p hc
    cases hl : s.awaiting.lookup p.taskId with
    | none => simp [processAckTask, hl]
    | some d => simp [processAckTask, hl, hc]
  · intro p
    cases hl : s.awaiting.lookup p.taskId with
    | none => simp [processAckTask, hl]
    | some d =>
      cases hc : p.cached <;> simp [processAckTask, hl, hc]

/-- C1 counterexample: a final cached `Ack` for call id 0 settles the
caller's future but the awaiting entry for id 0 is still in the table
afterwards, contradicting "removed exactly once, on receipt of the
matching Result task or of a final (cached) Ack task; after that removal
no entry for that call id remains". -/
theorem c1_counterexample_cached_ack_keeps_entry :
    (processAckTask ⟨0, true, some (.vnum 5), none⟩
        ⟨1, [(0, ⟨0, "op"⟩)], [(0, .pending)], 1⟩).awaiting.lookup 0 =
      some ⟨0, "op"⟩ ∧
    (processAckTask ⟨0, true, some (.vnum 5), none⟩
        ⟨1, [(0, ⟨0, "op"⟩)], [(0, .pending)], 1⟩).awaiting.lookup 0 ≠
      none := by
  constructor
  · rfl
  · decide

/-- C1 witness at a concrete instance (creation side). -/
theorem c1_witness :
    (([] : List (Nat × AwaitingEntry)).lookup 0 = none) ∧
    ((invoke "op" .undef false false ⟨0, [], [], 0⟩).1.awaiting.lookup 0 =
      some ⟨0, "op"⟩) :=
  ⟨(c1_awaiting_entry_lifecycle ⟨0, [], [], 0⟩ "op" .undef false false
      (by simp)).1,
   (c1_awaiting_entry_lifecycle ⟨0, [], [], 0⟩ "op" .undef false false
      (by simp)).2.1⟩

/-- C2 (amended): for an `invoke` (no ack) whose handler throws
synchronously or rejects its deferred result with a TRUTHY error value
`e`, the future returned by `invoke` rejects with exactly `e`, and it
settles exactly once: the awaiting entry is deleted with the settlement,
so any further `Result` or `Ack` for that call id leaves the state
untouched.  (For a falsy `e` — e.g. `0` — the source's truthiness test
`error ? reject : resolve` takes the resolve branch instead; see the
counterexample.) -/
theorem c2_handler_error_rejects (op : String) (arg : Val) (e : Val)
    (h : HandlerOutcome) (rTid : Nat) (s : CallerState)
    (he : e.truthy = true)
    (hh : h = .syncThrow e ∨ h = .asyncThrow e) :
    ((roundTrip op arg false h rTid s).1.futures.lookup
        (roundTrip op arg false h rTid s).2.2) = some (.rejected e) ∧
    (∀ p : ResultPayload, p.taskId = (roundTrip op arg false h rTid s).2.1 →
      processResultTask p (roundTrip op arg false h rTid s).1 =
        (roundTrip op arg false h rTid s).1) ∧
    (∀ p : AckPayload, p.taskId = (roundTrip op arg false h rTid s).2.1 →
      processAckTask p (roundTrip op arg false h rTid s).1 =
        (roundTrip op arg false h rTid s).1) := by
  have hrt : roundTrip op arg false h rTid s =
      (processResultTask ⟨s.taskId, none, some e⟩
        ⟨s.taskId + 1, (s.taskId, ⟨s.nextFuture, op⟩) :: s.awaiting,
         (s.nextFuture, .pending) :: s.futures, s.nextFuture + 1⟩,
       s.taskId, s.nextFuture) := by
    rcases hh with hh | hh <;> subst hh <;> rfl
  rw [hrt, processResultTask_fresh_err _ _ _ _ _ _ _ _ _ he]
  refine ⟨?_, ?_, ?_⟩
  · show (settle ((s.nextFuture, FutureState.pending) :: s.futures)
        s.nextFuture (.rejected e)).lookup s.nextFuture =
      some (.rejected e)
    rw [settle_cons_pending, lookup_cons_self]
  · intro p hp
    apply processResultTask_noop
    rw [hp]
    exact lookup_filter_ne _ _
  · intro p hp
    apply processAckTask_noop
    rw [hp]
    exact lookup_filter_ne _ _

/-- C2 counterexample: a handler that throws the falsy error value `0`.
The `Result` carries `error = 0`, the receiver-side truthiness test
`error ? reject : resolve` fails, and the caller's future RESOLVES with
`undefined` instead of rejecting with `0` — so the claim's "for every
value of e" fails. -/
theorem c2_counterexample_falsy_error :
    ((roundTrip "f" .undef false (.syncThrow (.vnum 0)) 0
        ⟨0, [], [], 0⟩).1.futures.lookup 0 =
      some (.resolved (.plain .undef))) ∧
    ((roundTrip "f" .undef false (.syncThrow (.vnum 0)) 0
        ⟨0, [], [], 0⟩).1.futures.lookup 0 ≠
      some (.rejected (.vnum 0))) := by
  refine ⟨rfl, ?_⟩
  decide

/-- C2 witness at a concrete instance. -/
theorem c2_witness :
    Val.truthy (.vstr "boom") = true ∧
    ((roundTrip "f" .undef false (.syncThrow (.vstr "boom")) 0
        ⟨0, [], [], 0⟩).1.futures.lookup
      (roundTrip "f" .undef false (.syncThrow (.vstr "boom")) 0
        ⟨0, [], [], 0⟩).2.2 = some (.rejected (.vstr "boom"))) :=
  ⟨by decide,
   (c2_handler_error_rejects "f" .undef (.vstr "boom")
      (.syncThrow (.vstr "boom")) 0 ⟨0, [], [], 0⟩ (by decide)
      (Or.inl rfl)).1⟩

/-- C3: `invoke(op, args, withAck = true)` against a handler whose
outcome is available synchronously as `v`: the receiver pushes exactly
one task — an `Ack` with `cached = true` carrying the result, and in
particular no `Result` task for that call id — and the caller's future
resolves to the `AckedResult` with `cached = true` whose `result`
promise is already resolved with `v`. -/
theorem c3_ack_cached_sync_result (op : String) (arg : Val) (v : Val)
    (rTid : Nat) (s : CallerState) :
    (processInvokeTask true false s.taskId (.syncVal v) rTid).1 =
      [.ack (rTid + 1) false ⟨s.taskId, true, some v, none⟩] ∧
    ((roundTrip op arg true (.syncVal v) rTid s).1.futures.lookup
        (roundTrip op arg true (.syncVal v) rTid s).2.2 =
      some (.resolved (.acked true (s.nextFuture + 1)))) ∧
    ((roundTrip op arg true (.syncVal v) rTid s).1.futures.lookup
        (s.nextFuture + 1) = some (.resolved (.plain v))) := by
  have hrt : roundTrip op arg true (.syncVal v) rTid s =
      (processAckTask ⟨s.taskId, true, some v, none⟩
        ⟨s.taskId + 1, (s.taskId, ⟨s.nextFuture, op⟩) :: s.awaiting,
         (s.nextFuture, .pending) :: s.futures, s.nextFuture + 1⟩,
       s.taskId, s.nextFuture) := rfl
  have hne1 : s.nextFuture ≠ s.nextFuture + 1 := by omega
  rw [hrt, processAckTask_fresh_cached]
  refine ⟨rfl, ?_, ?_⟩
  · show (settle ((s.nextFuture + 1, FutureState.resolved (.plain v)) ::
        (s.nextFuture, FutureState.pending) :: s.futures) s.nextFuture
        (.resolved (.acked true (s.nextFuture + 1)))).lookup s.nextFuture =
      some (.resolved (.acked true (s.nextFuture + 1)))
    rw [settle_cons_ne _ _ _ _ _ (by omega), settle_cons_pending,
      lookup_cons_ne hne1, lookup_cons_self]
  · show (settle ((s.nextFuture + 1, FutureState.resolved (.plain v)) ::
        (s.nextFuture, FutureState.pending) :: s.futures) s.nextFuture
        (.resolved (.acked true (s.nextFuture + 1)))).lookup
        (s.nextFuture + 1) = some (.resolved (.plain v))
    rw [settle_cons_ne _ _ _ _ _ (by omega), lookup_cons_self]

/-- C4 (amended): `invoke(op, args, withAck = true)` against a handler
whose outcome is deferred: the `Ack` pushed first carries
`cached = false` and no result/error payload; processing it resolves the
caller's future to `AckedResult` with `cached = false` whose `result` is
a second, still-pending future; the awaiting entry is rebound in place
(same call id, target redirected to the second future, task type kept);
and the later `Result` task settles that second future with the
handler's eventual value — or with its rejection error, PROVIDED the
error is truthy (a falsy rejection error resolves the second future with
`undefined` instead; see the counterexample). -/
theorem c4_ack_deferred_rebinding (op : String) (arg : Val)
    (rTid : Nat) (s : CallerState) (h : HandlerOutcome) (v e : Val)
    (exp : FutureState)
    (hh : (h = .asyncVal v ∧ exp = .resolved (.plain v)) ∨
          (h = .asyncThrow e ∧ e.truthy = true ∧ exp = .rejected e)) :
    (processInvokeTask true false s.taskId h rTid).1.head? =
      some (.ack (rTid + 1) false ⟨s.taskId, false, none, none⟩) ∧
    ((processAckTask ⟨s.taskId, false, none, none⟩
        (invoke op arg true false s).1).futures.lookup s.nextFuture =
      some (.resolved (.acked false (s.nextFuture + 1)))) ∧
    ((processAckTask ⟨s.taskId, false, none, none⟩
        (invoke op arg true false s).1).futures.lookup (s.nextFuture + 1) =
      some .pending) ∧
    ((processAckTask ⟨s.taskId, false, none, none⟩
        (invoke op arg true false s).1).awaiting.lookup s.taskId =
      some ⟨s.nextFuture + 1, op⟩) ∧
    ((roundTrip op arg true h rTid s).1.futures.lookup (s.nextFuture + 1) =
      some exp) := by
  have hS2 : processAckTask ⟨s.taskId, false, none, none⟩
      (invoke op arg true false s).1 =
      ⟨s.taskId + 1,
       (s.taskId, (⟨s.nextFuture + 1, op⟩ : AwaitingEntry)) ::
         (s.awaiting.map fun q =>
           if q.1 = s.taskId then
             (q.1, (⟨s.nextFuture + 1, op⟩ : AwaitingEntry))
           else q),
       (s.nextFuture + 1, FutureState.pending) ::
         (s.nextFuture,
           FutureState.resolved (.acked false (s.nextFuture + 1))) ::
         settle s.futures s.nextFuture
           (.resolved (.acked false (s.nextFuture + 1))),
       s.nextFuture + 2⟩ := by
    have h1 : (invoke op arg true false s).1 =
        ⟨s.taskId + 1, (s.taskId, ⟨s.nextFuture, op⟩) :: s.awaiting,
         (s.nextFuture, .pending) :: s.futures, s.nextFuture + 1⟩ := rfl
    rw [h1, processAckTask_fresh_uncached,
      settle_cons_ne _ _ _ _ _ (by omega), settle_cons_pending]
    simp
  have hne1 : s.nextFuture ≠ s.nextFuture + 1 := by omega
  rw [hS2]
  refine ⟨?_, ?_, ?_, ?_, ?_⟩
  · rcases hh with ⟨hh, _⟩ | ⟨hh, _, _⟩ <;> subst hh <;> rfl
  · dsimp only
    rw [lookup_cons_ne hne1, lookup_cons_self]
  · dsimp only
    rw [lookup_cons_self]
  · dsimp only
    rw [lookup_cons_self]
  · rcases hh with ⟨hh, he⟩ | ⟨hh, ht, he⟩ <;> subst hh <;> subst he
    · have hrt : roundTrip op arg true (.asyncVal v) rTid s =
          (processResultTask ⟨s.taskId, some v, none⟩
            (processAckTask ⟨s.taskId, false, none, none⟩
              (invoke op arg true false s).1), s.taskId, s.nextFuture) := rfl
      rw [hrt, hS2, processResultTask_fresh_ok _ _ _ _ _ _ _ _ none rfl]
      dsimp only
      rw [settle_cons_pending, lookup_cons_self]
      rfl
    · have hrt : roundTrip op arg true (.asyncThrow e) rTid s =
          (processResultTask ⟨s.taskId, none, some e⟩
            (processAckTask ⟨s.taskId, false, none, none⟩
              (invoke op arg true false s).1), s.taskId, s.nextFuture) := rfl
      rw [hrt, hS2, processResultTask_fresh_err _ _ _ _ _ _ _ _ _ ht]
      dsimp only
      rw [settle_cons_pending, lookup_cons_self]

/-- C4 counterexample: a deferred handler that rejects with the falsy
error value `0` — the later `Result` carries `error = 0`, the truthiness
test fails, and the second future RESOLVES with `undefined` instead of
settling with the handler's error. -/
theorem c4_counterexample_falsy_deferred_error :
    ((roundTrip "f" .undef true (.asyncThrow (.vnum 0)) 0
        ⟨0, [], [], 0⟩).1.futures.lookup 1 =
      some (.resolved (.plain .undef))) ∧
    ((roundTrip "f" .undef true (.asyncThrow (.vnum 0)) 0
        ⟨0, [], [], 0⟩).1.futures.lookup 1 ≠
      some (.rejected (.vnum 0))) := by
  refine ⟨rfl, ?_⟩
  decide

/-- C4 witness at a concrete instance. -/
theorem c4_witness :
    ((processInvokeTask true false 0 (.asyncVal (.vnum 7)) 0).1.head? =
      some (.ack 1 false ⟨0, false, none, none⟩)) ∧
    ((roundTrip "f" .undef true (.asyncVal (.vnum 7)) 0
        ⟨0, [], [], 0⟩).1.futures.lookup 1 =
      some (.resolved (.plain (.vnum 7)))) :=
  ⟨(c4_ack_deferred_rebinding "f" .undef 0 ⟨0, [], [], 0⟩
      (.asyncVal (.vnum 7)) (.vnum 7) .undef (.resolved (.plain (.vnum 7)))
      (Or.inl ⟨rfl, rfl⟩)).1,
   (c4_ack_deferred_rebinding "f" .undef 0 ⟨0, [], [], 0⟩
      (.asyncVal (.vnum 7)) (.vnum 7) .undef (.resolved (.plain (.vnum 7)))
      (Or.inl ⟨rfl, rfl⟩)).2.2.2.2⟩

/-- C5 (amended): when N tasks, none with a transfer list, sit queued
for one destination at flush time, the flush hands the transport exactly
one `Batch` task containing those N tasks in enqueue order; when one of
the queued tasks carries a transfer list, that task is sent alone (never
inside a batch), and PROVIDED at least one other task is queued with it
(N ≥ 2) the flush performs at least two transport sends, the batch being
split at the transfer-carrying task.  (With N = 1 the lone transfer task
is the only send; see the counterexample.) -/
theorem c5_batching :
    (∀ (s : FlushState) (k : Option Nat) (ts : List Task),
      s.pending = [(k, ts)] → s.listenPorts ≠ [] → s.releasing = false →
      ts ≠ [] → (∀ t ∈ ts, t.hasTransfer = false) →
      releasePending s =
        ({ s with pending := [], taskId := s.taskId + 1 },
         [(k, .batch s.taskId false ts)])) ∧
    (∀ (s : FlushState) (k : Option Nat) (l₁ l₂ : List Task) (tr : Task),
      s.pending = [(k, l₁ ++ tr :: l₂)] → s.listenPorts ≠ [] →
      s.releasing = false → tr.hasTransfer = true →
      (∀ t ∈ l₁, t.hasTransfer = false) →
      (∀ t ∈ l₂, t.hasTransfer = false) →
      (l₁ ≠ [] ∨ l₂ ≠ []) →
      (k, tr) ∈ (releasePending s).2 ∧
      2 ≤ (releasePending s).2.length) := by
  constructor
  · intro s k ts hp hl hr hne hall
    have hguard : s.listenPorts.isEmpty = false := by
      simpa [List.isEmpty_iff] using hl
    simp [releasePending, hguard, hr, hp, flushAll,
      flushPort_none_all_plain ts s.taskId hne hall]
  · intro s k l₁ l₂ tr hp hl hr htr h1 h2 hor
    have hguard : s.listenPorts.isEmpty = false := by
      simpa [List.isEmpty_iff] using hl
    have hout : (releasePending s).2 =
        ((flushPort s.taskId none (l₁ ++ tr :: l₂)).1).map fun t => (k, t) := by
      simp [releasePending, hguard, hr, hp, flushAll]
    rw [hout]
    cases l₁ with
    | nil =>
      have hne2 : l₂ ≠ [] := by
        rcases hor with hcon | hx
        · exact absurd rfl hcon
        · exact hx
      have hfp := flushPort_none_all_plain l₂ s.taskId hne2 h2
      rw [List.nil_append, flushPort]
      cases htb : tr.hasTransfer with
      | false => simp [htr] at htb
      | true =>
        constructor
        · simp [closeCur, hfp]
        · simp [closeCur, hfp]
    | cons t rest =>
      have ht : t.hasTransfer = false := h1 t (List.mem_cons_self _ _)
      have h1' : ∀ x ∈ rest, x.hasTransfer = false :=
        fun x hx => h1 x (List.mem_cons_of_mem _ hx)
      have hsplit := flushPort_split_none_cons t rest tr l₂ s.taskId ht h1' htr
      rw [hsplit]
      constructor
      · simp
      · simp only [List.map_cons, List.length_cons]
        omega

/-- C5 counterexample: a single queued task carrying a transfer list
(N = 1).  It is sent alone, so the flush performs exactly one transport
send — not "at least 2". -/
theorem c5_counterexample_single_transfer_task :
    (releasePending ⟨[0], false, 6, [(some 0, [.ping 5 true])]⟩).2 =
      [(some 0, .ping 5 true)] ∧
    ¬(2 ≤ (releasePending
        ⟨[0], false, 6, [(some 0, [.ping 5 true])]⟩).2.length) := by
  refine ⟨rfl, ?_⟩
  decide

/-- C5 witness at concrete instances of both parts. -/
theorem c5_witness :
    (releasePending ⟨[0], false, 3, [(some 1, [.ping 9 false, .pong 10 false])]⟩ =
      (⟨[0], false, 4, []⟩,
       [(some 1, .batch 3 false [.ping 9 false, .pong 10 false])])) ∧
    ((some 1, Task.invoke 4 true "op" .undef false true) ∈
      (releasePending ⟨[0], false, 3,
        [(some 1, [.ping 9 false, .invoke 4 true "op" .undef false true,
          .pong 10 false])]⟩).2 ∧
     2 ≤ (releasePending ⟨[0], false, 3,
        [(some 1, [.ping 9 false, .invoke 4 true "op" .undef false true,
          .pong 10 false])]⟩).2.length) :=
  ⟨c5_batching.1 ⟨[0], false, 3, [(some 1, [.ping 9 false, .pong 10 false])]⟩
      (some 1) [.ping 9 false, .pong 10 false] rfl (by simp) rfl (by simp)
      (by simp [Task.hasTransfer]),
   c5_batching.2 ⟨[0], false, 3,
      [(some 1, [.ping 9 false, .invoke 4 true "op" .undef false true,
        .pong 10 false])]⟩
      (some 1) [.ping 9 false] [.pong 10 false]
      (.invoke 4 true "op" .undef false true) rfl (by simp) rfl rfl
      (by simp [Task.hasTransfer]) (by simp [Task.hasTransfer])
      (Or.inl (by simp))⟩

/-- C6: for a destination whose Ping sees no Pong before the deadline,
the timeout branch of `sendPing` removes it from both the listen and the
send endpoint sets and invokes its transport-level close hook when it has
one; after that, the target computations of `invokeExceptSource` (any
excluded source) and of a destination-omitted broadcast `invoke` no
longer contain it.  The endpoint arrays hold each attached port once
(they are sets per the spec), hence the `Nodup` hypotheses. -/
theorem c6_ping_timeout_detach (hasClose : Nat → Bool) (port : Nat)
    (s : PortsState) (hl : s.listenPorts.Nodup) (hs : s.sendPorts.Nodup) :
    port ∉ (pingTimeout hasClose port s).1.listenPorts ∧
    port ∉ (pingTimeout hasClose port s).1.sendPorts ∧
    (pingTimeout hasClose port s).2 = hasClose port ∧
    (∀ src, port ∉ invokeExceptSourceTargets (pingTimeout hasClose port s).1 src) ∧
    port ∉ broadcastTargets (pingTimeout hasClose port s).1 := by
  refine ⟨hl.not_mem_erase, hs.not_mem_erase, rfl, ?_, hs.not_mem_erase⟩
  intro src hmem
  exact hs.not_mem_erase (List.erase_subset _ _ hmem)

/-- C6 witness at a concrete instance. -/
theorem c6_witness :
    1 ∉ (pingTimeout (fun _ => true) 1 ⟨[1, 2], [1, 2], [1]⟩).1.listenPorts ∧
    1 ∉ (pingTimeout (fun _ => true) 1 ⟨[1, 2], [1, 2], [1]⟩).1.sendPorts ∧
    (pingTimeout (fun _ => true) 1 ⟨[1, 2], [1, 2], [1]⟩).2 = true ∧
    1 ∉ invokeExceptSourceTargets
      (pingTimeout (fun _ => true) 1 ⟨[1, 2], [1, 2], [1]⟩).1 2 ∧
    1 ∉ broadcastTargets (pingTimeout (fun _ => true) 1 ⟨[1, 2], [1, 2], [1]⟩).1 :=
  ⟨(c6_ping_timeout_detach (fun _ => true) 1 ⟨[1, 2], [1, 2], [1]⟩
      (by decide) (by decide)).1,
   (c6_ping_timeout_detach (fun _ => true) 1 ⟨[1, 2], [1, 2], [1]⟩
      (by decide) (by decide)).2.1,
   (c6_ping_timeout_detach (fun _ => true) 1 ⟨[1, 2], [1, 2], [1]⟩
      (by decide) (by decide)).2.2.1,
   (c6_ping_timeout_detach (fun _ => true) 1 ⟨[1, 2], [1, 2], [1]⟩
      (by decide) (by decide)).2.2.2.1 2,
   (c6_ping_timeout_detach (fun _ => true) 1 ⟨[1, 2], [1, 2], [1]⟩
      (by decide) (by decide)).2.2.2.2⟩

/-- C7: a void invocation produces no `Result` and no `Ack` traffic at
the receiver, whatever the handler does — returns a value, returns a
deferred value, throws, rejects, or is absent — and `invokeVoid` builds
its task with the void flag set and no ack request. -/
theorem c7_invokeVoid_no_reply (op : String) (arg : Val) (tr : Bool)
    (tid : Nat) (withAck : Bool) (callId rTid : Nat) (h : HandlerOutcome) :
    (invokeVoid op arg tr tid).1 = .invoke tid tr op arg false true ∧
    (processInvokeTask withAck true callId h rTid).1 = [] := by
  refine ⟨rfl, ?_⟩
  cases h <;> simp [processInvokeTask]

/-- C8: an inbound Ping from any source makes the receiver queue a Pong
under that source's own key (the other queues are untouched), and
`postMessage` resolves that key to exactly that source — not to the
broadcast set. -/
theorem c8_ping_pong_direct (src tid : Nat)
    (pend : List (Option Nat × List Task)) (ports : List Nat) :
    ((processPingTask (some src) tid pend).1).lookup (some src) =
      some (((pend.lookup (some src)).getD []) ++ [.pong tid false]) ∧
    (∀ k, k ≠ some src →
      ((processPingTask (some src) tid pend).1).lookup k = pend.lookup k) ∧
    postMessage (some src) ports = [src] := by
  refine ⟨pushTask_lookup_self _ _ _, ?_, rfl⟩
  intro k hk
  exact pushTask_lookup_other _ _ _ hk pend

/-- C8 witness at a concrete instance. -/
theorem c8_witness :
    ((processPingTask (some 7) 3 []).1).lookup (some 7) =
      some (((([] : List (Option Nat × List Task)).lookup (some 7)).getD [])
        ++ [.pong 3 false]) ∧
    ((processPingTask (some 7) 3 []).1).lookup (some 4) =
      ([] : List (Option Nat × List Task)).lookup (some 4) ∧
    postMessage (some 7) [4, 5] = [7] :=
  ⟨(c8_ping_pong_direct 7 3 [] [4, 5]).1,
   (c8_ping_pong_direct 7 3 [] [4, 5]).2.1 (some 4) (by decide),
   (c8_ping_pong_direct 7 3 [] [4, 5]).2.2⟩

/-- C9: with no listen port attached the flush routine returns without
sending and without clearing the queue; a `pushTask` in that situation
only buffers the task; a `pushTask` performed while a listen port is
attached (and no release is in flight) drains the whole queue and emits
at least one transport send; and `attachListenPort` itself only records
the port — it triggers no flush. -/
theorem c9_flush_requires_listen_port (s : FlushState) (t : Task)
    (k : Option Nat) :
    (s.listenPorts = [] → releasePending s = (s, [])) ∧
    (s.listenPorts = [] →
      pushTaskAndFlush t k s =
        ({ s with pending := pushTask t k s.pending }, [])) ∧
    (s.listenPorts ≠ [] → s.releasing = false →
      (pushTaskAndFlush t k s).1.pending = [] ∧
      (pushTaskAndFlush t k s).2 ≠ []) ∧
    (∀ p, attachListenPort p s =
      { s with listenPorts := s.listenPorts ++ [p] }) := by
  refine ⟨?_, ?_, ?_, fun p => rfl⟩
  · intro h
    simp [releasePending, h]
  · intro h
    simp [pushTaskAndFlush, releasePending, h]
  · intro hl hr
    have hguard : ({ s with pending := pushTask t k s.pending } :
        FlushState).listenPorts.isEmpty = false := by
      simpa [List.isEmpty_iff] using hl
    constructor
    · simp [pushTaskAndFlush, releasePending, hguard, hr]
    · simp only [pushTaskAndFlush, releasePending, hguard, hr,
        Bool.false_eq_true, Bool.or_self, if_false]
      exact flushAll_ne_nil _ _ (pushTask_has_nonempty t k s.pending)

/-- C9 witness at a concrete instance. -/
theorem c9_witness :
    (releasePending ⟨[], false, 0, [(none, [.ping 0 false])]⟩ =
      (⟨[], false, 0, [(none, [.ping 0 false])]⟩, [])) ∧
    ((pushTaskAndFlush (.ping 1 false) none
        ⟨[9], false, 0, []⟩).1.pending = [] ∧
      (pushTaskAndFlush (.ping 1 false) none ⟨[9], false, 0, []⟩).2 ≠ []) :=
  ⟨(c9_flush_requires_listen_port ⟨[], false, 0, [(none, [.ping 0 false])]⟩
      (.ping 1 false) none).1 rfl,
    (c9_flush_requires_listen_port ⟨[9], false, 0, []⟩
      (.ping 1 false) none).2.2.1 (by simp) rfl⟩

/-- C10: a `Result` or `Ack` task whose `taskId` has no entry in the
awaiting table leaves the caller state unchanged — no entry is created
or modified and no future is settled (these handlers push no tasks in
the source, and the modelled functions are total, so no error escapes
the dispatch). -/
theorem c10_unknown_id_noop (s : CallerState) (i : Nat)
    (r e : Option Val) (c : Bool) (h : s.awaiting.lookup i = none) :
    processResultTask ⟨i, r, e⟩ s = s ∧ processAckTask ⟨i, c, r, e⟩ s = s := by
  constructor
  · simp [processResultTask, h]
  · simp [processAckTask, h]

/-- C10 witness at a concrete instance. -/
theorem c10_witness :
    processResultTask ⟨5, none, none⟩ ⟨0, [], [], 0⟩ = ⟨0, [], [], 0⟩ ∧
    processAckTask ⟨5, true, none, none⟩ ⟨0, [], [], 0⟩ = ⟨0, [], [], 0⟩ :=
  c10_unknown_id_noop ⟨0, [], [], 0⟩ 5 none none true rfl

end SuperMessagePort
